import Mathlib

/-!
Verification of the lightsout inactivity-based lifecycle controller
(libops/lightsout, main.go).

The Go program is shallowly embedded as pure Lean functions:

* timestamps and durations are `Int` (Go `time.Time` / `time.Duration`
  arithmetic on int64 nanoseconds; the values involved are tiny, so no
  wrap-around modelling is needed);
* each fallible external interaction (HTTP transport, JSON decoding,
  the fallback docker-log probe, the injected suspend function) is an
  oracle value of type `Except String _` supplied as an argument, and
  the embedded function reproduces the Go control flow on top of it;
* the timer / shutdown-signal subsystem is a small labelled transition
  system whose steps mirror `resetShutdownTimer`, `stopShutdownTimer`,
  `pingHandler`, `main`'s startup arming, and the firing of a
  `time.AfterFunc` callback (which runs `initiateShutdown`).
-/

namespace Lightsout

/-- Config mirrors the `Config` struct of main.go (loadConfig).
`inactivityTimeout` is a Go `time.Duration` (int64), kept abstract as `Int`. -/
structure Config where
  port : String
  inactivityTimeout : Int
  libOpsKeepOnline : String
  logLevel : String
  googleProjectID : String
  gceZone : String
  gceInstance : String
  deriving Repr, DecidableEq

/-- AccessToken mirrors the `AccessToken` struct of main.go. -/
structure AccessToken where
  accessToken : String
  expiresIn : Int
  tokenType : String
  deriving Repr, DecidableEq

/-- ComputeInstance mirrors the `ComputeInstance` struct of main.go
(only the `Status` field is decoded from the API response). -/
structure ComputeInstance where
  status : String
  deriving Repr, DecidableEq

/-- Boolean success test for an `Except` outcome. -/
def exceptOk {ε α : Type} : Except ε α → Bool
  | .ok _ => true
  | .error _ => false

/-- Success value of an `Except` outcome, forgetting the error message. -/
def exceptValue {ε α : Type} : Except ε α → Option α
  | .ok a => some a
  | .error _ => none

/-- Test from initiateShutdown line
`config.GoogleProjectID == "" || config.GCEZone == "" || config.GCEInstance == ""`. -/
def gcpConfigMissing (cfg : Config) : Bool :=
  cfg.googleProjectID == "" || cfg.gceZone == "" || cfg.gceInstance == ""

/-!
The shutdown-signal latch.  `serverShutdown` is a `chan struct{}` that is
closed at most once; the closing code in `initiateShutdown` runs under
`shutdownMutex` and is

    select { case <-serverShutdown: default: close(serverShutdown) }

so concurrent or repeated closers are serialized by the lock and the
checked-then-close below is an exact model of one such serialized call.
The latch state is a `Bool` (`true` = closed).
-/

/-- Model of one serialized execution of the guarded close in
initiateShutdown: returns the new latch state and whether this call
actually performed the `close` (a delivery to the single waiter). -/
def closeSignalOp (closed : Bool) : Bool × Bool :=
  if closed then (true, false) else (true, true)

/-- Apply `closeSignalOp` a number of times in sequence (the lock serializes
any concurrent closers into such a sequence), counting how many of the
calls actually performed the close. -/
def closeSeq : Nat → Bool → Bool × Nat
  | 0, c => (c, 0)
  | n + 1, c =>
      let r := closeSignalOp c
      let rest := closeSeq n r.1
      (rest.1, (if r.2 then 1 else 0) + rest.2)

/-!
The Inactivity Decision routine, `initiateShutdown` (main.go lines
291-338), as a pure function of:

* the config and the tracker's `lastPing` (read under the RLock),
* the current time `now`,
* the result of the fallback probe `getLastGitHubActionsActivity`
  (an `Except`: `ok t` when a timestamp was parsed, `error` otherwise),
* the outcome the injected `suspendFunc` would have when called,
* the current state of the `serverShutdown` latch.

The returned record captures the routine's externally visible choices and
the log events it emits (log payloads carry the values the Go code logs,
in raw duration units rather than truncated seconds).
-/

/-- Log events emitted by initiateShutdown, with the data they carry. -/
inductive LogEvent where
  | stayingOnline (ghaDuration : Int)
  | proceeding (pingDuration : Int)
  | missingConfig (project zone inst : String)
  | suspendFailed (err : String)
  | suspendOk
  deriving Repr, DecidableEq

/-- Outcome record of one run of initiateShutdown. -/
structure DecisionResult where
  /-- resetShutdownTimer was called by the fallback ("Staying online") branch. -/
  rearmed : Bool
  /-- suspendFunc was invoked. -/
  suspendAttempted : Bool
  /-- this run itself executed `close(serverShutdown)`. -/
  signalClosed : Bool
  /-- state of the serverShutdown latch after the run. -/
  serverShutdownAfter : Bool
  logs : List LogEvent
  deriving Repr, DecidableEq

/-- Tail of initiateShutdown from the "Proceeding with shutdown" log on
(main.go lines 311-338): skip suspension when the GCP identity is
incomplete, otherwise invoke suspendFunc (failure only logged), then
perform the guarded close of serverShutdown. -/
def proceedWithShutdown (cfg : Config) (pingDuration : Int)
    (suspendRes : Except String Unit) (closed : Bool) : DecisionResult :=
  let logsHead := [LogEvent.proceeding pingDuration]
  let attemptLogs :
      Bool × List LogEvent :=
    if gcpConfigMissing cfg then
      (false, logsHead ++ [LogEvent.missingConfig cfg.googleProjectID cfg.gceZone cfg.gceInstance])
    else
      match suspendRes with
      | .error e => (true, logsHead ++ [LogEvent.suspendFailed e])
      | .ok _ => (true, logsHead ++ [LogEvent.suspendOk])
  let closeRes := closeSignalOp closed
  { rearmed := false
    suspendAttempted := attemptLogs.1
    signalClosed := closeRes.2
    serverShutdownAfter := closeRes.1
    logs := attemptLogs.2 }

/-- initiateShutdown (main.go lines 291-338).  Reads lastPing, computes
`duration = now - lastPing` (used only in the "Proceeding" log), consults
the fallback probe, and either rearms ("Staying online for GitHub
Actions") or proceeds to the suspend-and-signal tail. -/
def initiateShutdown (cfg : Config) (lastPing now : Int)
    (gha : Except String Int) (suspendRes : Except String Unit)
    (closed : Bool) : DecisionResult :=
  let duration := now - lastPing
  match gha with
  | .ok lastGHA =>
      if now - lastGHA < cfg.inactivityTimeout then
        { rearmed := true
          suspendAttempted := false
          signalClosed := false
          serverShutdownAfter := closed
          logs := [LogEvent.stayingOnline (now - lastGHA)] }
      else
        proceedWithShutdown cfg duration suspendRes closed
  | .error _ => proceedWithShutdown cfg duration suspendRes closed

/-- Decision-relevant projection of a run: everything except the logs. -/
def decisionOf (r : DecisionResult) : Bool × Bool × Bool × Bool :=
  (r.rearmed, r.suspendAttempted, r.signalClosed, r.serverShutdownAfter)

/-- C1: in initiateShutdown, a fallback-probe timestamp strictly fresher
than the inactivity timeout makes the routine rearm and return at once:
suspendFunc is not invoked and the serverShutdown latch is not closed
(it keeps its previous state). -/
theorem fresh_fallback_rearms_only (cfg : Config) (lastPing now t : Int)
    (suspendRes : Except String Unit) (closed : Bool)
    (h : now - t < cfg.inactivityTimeout) :
    (initiateShutdown cfg lastPing now (.ok t) suspendRes closed).rearmed = true ∧
    (initiateShutdown cfg lastPing now (.ok t) suspendRes closed).suspendAttempted = false ∧
    (initiateShutdown cfg lastPing now (.ok t) suspendRes closed).signalClosed = false ∧
    (initiateShutdown cfg lastPing now (.ok t) suspendRes closed).serverShutdownAfter = closed := by
  simp [initiateShutdown, h]

/-- Witness for C1 at a concrete input. -/
theorem fresh_fallback_rearms_only_witness :
    (initiateShutdown
      { port := "8808", inactivityTimeout := 90, libOpsKeepOnline := "",
        logLevel := "INFO", googleProjectID := "p", gceZone := "z", gceInstance := "i" }
      0 100 (.ok 50) (.ok ()) false).suspendAttempted = false := by
  exact (fresh_fallback_rearms_only
    { port := "8808", inactivityTimeout := 90, libOpsKeepOnline := "",
      logLevel := "INFO", googleProjectID := "p", gceZone := "z", gceInstance := "i" }
    0 100 50 (.ok ()) false (by decide)).2.1

/-- C3: initiateShutdown always reaches exactly one of two terminal
choices: either it rearms (then it did not attempt suspension and did not
touch the latch), or the serverShutdown latch is closed afterwards.
Moreover, past the fallback branch, a missing GCP identity field skips
the suspend attempt but the latch is still closed, and a failing
suspendFunc still ends with the latch closed. -/
theorem decision_total_terminal (cfg : Config) (lastPing now : Int)
    (gha : Except String Int) (suspendRes : Except String Unit) (closed : Bool) :
    (((initiateShutdown cfg lastPing now gha suspendRes closed).rearmed = true ∧
      (initiateShutdown cfg lastPing now gha suspendRes closed).suspendAttempted = false ∧
      (initiateShutdown cfg lastPing now gha suspendRes closed).signalClosed = false) ∨
     ((initiateShutdown cfg lastPing now gha suspendRes closed).rearmed = false ∧
      (initiateShutdown cfg lastPing now gha suspendRes closed).serverShutdownAfter = true)) ∧
    (gcpConfigMissing cfg = true →
      (initiateShutdown cfg lastPing now gha suspendRes closed).rearmed = false →
      (initiateShutdown cfg lastPing now gha suspendRes closed).suspendAttempted = false ∧
      (initiateShutdown cfg lastPing now gha suspendRes closed).serverShutdownAfter = true) ∧
    (∀ e : String, suspendRes = .error e →
      (initiateShutdown cfg lastPing now gha suspendRes closed).rearmed = false →
      (initiateShutdown cfg lastPing now gha suspendRes closed).serverShutdownAfter = true) := by
  cases gha with
  | ok lastGHA =>
      by_cases h : now - lastGHA < cfg.inactivityTimeout
      · simp [initiateShutdown, h]
      · cases closed <;> rcases suspendRes with e | u <;>
          by_cases hm : gcpConfigMissing cfg = true <;>
          simp [initiateShutdown, h, proceedWithShutdown, closeSignalOp, hm]
  | error e =>
      cases closed <;> rcases suspendRes with e2 | u <;>
        by_cases hm : gcpConfigMissing cfg = true <;>
        simp [initiateShutdown, proceedWithShutdown, closeSignalOp, hm]

/-- Witness for C3 at a concrete input with a missing identity field and a
failing suspend outcome: the latch still ends closed. -/
theorem decision_total_terminal_witness :
    (initiateShutdown
      { port := "8808", inactivityTimeout := 90, libOpsKeepOnline := "",
        logLevel := "INFO", googleProjectID := "", gceZone := "z", gceInstance := "i" }
      0 200 (.error "no github-actions-runner logs") (.error "boom") false).suspendAttempted = false ∧
    (initiateShutdown
      { port := "8808", inactivityTimeout := 90, libOpsKeepOnline := "",
        logLevel := "INFO", googleProjectID := "", gceZone := "z", gceInstance := "i" }
      0 200 (.error "no github-actions-runner logs") (.error "boom") false).serverShutdownAfter = true := by
  exact (decision_total_terminal
    { port := "8808", inactivityTimeout := 90, libOpsKeepOnline := "",
      logLevel := "INFO", googleProjectID := "", gceZone := "z", gceInstance := "i" }
    0 200 (.error "no github-actions-runner logs") (.error "boom") false).2.1
    (by decide) (by decide)

/-- C5: the shutdown-signal close is idempotent.  A single guarded close of
an already-closed latch is a no-op with no delivery; any positive number
of serialized closes starting from the open latch leaves the latch closed
and delivers the close to the waiter exactly once; further closes of a
closed latch deliver nothing. -/
theorem closeSignal_idempotent :
    closeSignalOp true = (true, false) ∧
    (∀ n : Nat, closeSeq n true = (true, 0)) ∧
    (∀ n : Nat, closeSeq (n + 1) false = (true, 1)) := by
  have htrue : ∀ n : Nat, closeSeq n true = (true, 0) := by
    intro n
    induction n with
    | zero => rfl
    | succ k ih => simp [closeSeq, closeSignalOp, ih]
  refine ⟨rfl, htrue, ?_⟩
  intro n
  simp [closeSeq, closeSignalOp, htrue n]

/-- C10: the decision outcome of initiateShutdown does not depend on the
tracker's lastPing value: two runs identical except for lastPing agree on
rearm / suspend-attempt / signal-close / final latch state (lastPing only
feeds the "Proceeding with shutdown" log payload). -/
theorem decision_independent_of_lastPing (cfg : Config) (lp1 lp2 now : Int)
    (gha : Except String Int) (suspendRes : Except String Unit) (closed : Bool) :
    decisionOf (initiateShutdown cfg lp1 now gha suspendRes closed) =
    decisionOf (initiateShutdown cfg lp2 now gha suspendRes closed) := by
  cases gha with
  | ok lastGHA =>
      by_cases h : now - lastGHA < cfg.inactivityTimeout
      · simp [initiateShutdown, h]
      · rcases suspendRes with e | u <;>
          by_cases hm : gcpConfigMissing cfg = true <;>
          simp [initiateShutdown, h, decisionOf, proceedWithShutdown, hm]
  | error e =>
      rcases suspendRes with e2 | u <;>
        by_cases hm : gcpConfigMissing cfg = true <;>
        simp [initiateShutdown, decisionOf, proceedWithShutdown, hm]

/-!
The Lifecycle API Client.  The direct REST strategy (main.go, first
variant, lines 165-289) is built from three HTTP helpers; each helper's
transport outcome is an oracle in `RestEnv`:

* a transport error models `client.Do` / request construction failing;
* a success carries the HTTP status code and, where a body is decoded,
  the decoding outcome.

The SDK strategy (main.go, second variant, lines 582-648) goes through
`createComputeService` (credential discovery plus service construction)
and the SDK's Get / Suspend calls, whose outcomes are oracles in `SdkEnv`.
-/

/-- Externally visible remote interactions of the suspend procedure. -/
inductive RemoteEff where
  /-- resetShutdownTimer call (local, listed to fix its position). -/
  | timerRearm
  /-- credential acquisition (token fetch, or ADC discovery + service build). -/
  | credentialFetch
  /-- read of the instance status (GET metadata / SDK Instances.Get). -/
  | statusFetch
  /-- the suspend action (POST .../suspend / SDK Instances.Suspend). -/
  | suspendAction
  deriving Repr, DecidableEq

/-- Oracle outcomes for the three HTTP interactions of the REST strategy. -/
structure RestEnv where
  /-- token endpoint: transport outcome; on transport success, the status
  code and the JSON-decode outcome of the body. -/
  tokenHttp : Except String (Nat × Except String AccessToken)
  /-- instance-metadata endpoint, same shape. -/
  metadataHttp : Except String (Nat × Except String ComputeInstance)
  /-- suspend POST: transport outcome; on success just the status code. -/
  actionHttp : Except String Nat

/-- getAccessToken (main.go lines 165-189): transport error, then non-200
check, then JSON decode. -/
def getAccessToken (env : RestEnv) : Except String AccessToken :=
  match env.tokenHttp with
  | .error e => .error e
  | .ok (code, body) =>
      if code ≠ 200 then .error ("fetching token non-200: " ++ toString code)
      else
        match body with
        | .error e => .error ("failed to decode token response: " ++ e)
        | .ok t => .ok t

/-- getMachineMetadata (main.go lines 191-215). -/
def getMachineMetadata (env : RestEnv) : Except String ComputeInstance :=
  match env.metadataHttp with
  | .error e => .error e
  | .ok (code, body) =>
      if code ≠ 200 then .error ("getMachineMetadata non-200: " ++ toString code)
      else
        match body with
        | .error e => .error ("failed to decode instance metadata: " ++ e)
        | .ok vm => .ok vm

/-- performInstanceAction (main.go lines 217-238). -/
def performInstanceAction (env : RestEnv) : Except String Unit :=
  match env.actionHttp with
  | .error e => .error e
  | .ok code =>
      if code ≠ 200 then .error ("performInstanceAction non-200: " ++ toString code)
      else .ok ()

/-- suspendMachine, REST strategy (main.go lines 240-274): token, then
metadata, then the suspend action exactly when the status is "RUNNING".
Returns the list of remote interactions performed and the Go result. -/
def suspendMachineRest (env : RestEnv) : List RemoteEff × Except String ComputeInstance :=
  match getAccessToken env with
  | .error e => ([.credentialFetch], .error ("getAccessToken: " ++ e))
  | .ok _t =>
      match getMachineMetadata env with
      | .error e => ([.credentialFetch, .statusFetch], .error ("getMachineMetadata: " ++ e))
      | .ok vm =>
          if vm.status == "RUNNING" then
            match performInstanceAction env with
            | .error e =>
                ([.credentialFetch, .statusFetch, .suspendAction],
                  .error ("performInstanceAction: " ++ e))
            | .ok _ => ([.credentialFetch, .statusFetch, .suspendAction], .ok vm)
          else
            ([.credentialFetch, .statusFetch], .ok vm)

/-- suspendInstance (main.go lines 276-289): resetShutdownTimer first,
then suspendMachine; an error is wrapped, a success is discarded. -/
def suspendInstanceRest (env : RestEnv) : List RemoteEff × Except String Unit :=
  let r := suspendMachineRest env
  (RemoteEff.timerRearm :: r.1,
    match r.2 with
    | .error e => .error ("failed to suspend machine: " ++ e)
    | .ok _ => .ok ())

/-- Oracle outcomes for the SDK strategy's external interactions. -/
structure SdkEnv where
  /-- google.FindDefaultCredentials outcome. -/
  findCredsRes : Except String Unit
  /-- compute.NewService outcome. -/
  newServiceRes : Except String Unit
  /-- service.Instances.Get(...).Do() outcome. -/
  getInstanceRes : Except String ComputeInstance
  /-- service.Instances.Suspend(...).Do() outcome. -/
  suspendDoRes : Except String Unit

/-- createComputeService (main.go, second variant, lines 582-599). -/
def createComputeService (env : SdkEnv) : Except String Unit :=
  match env.findCredsRes with
  | .error e => .error ("failed to find default credentials: " ++ e)
  | .ok _ =>
      match env.newServiceRes with
      | .error e => .error ("failed to create compute service: " ++ e)
      | .ok _ => .ok ()

/-- suspendMachine, SDK strategy (main.go, second variant, lines 601-633). -/
def suspendMachineSdk (env : SdkEnv) : List RemoteEff × Except String ComputeInstance :=
  match createComputeService env with
  | .error e => ([.credentialFetch], .error ("createComputeService: " ++ e))
  | .ok _ =>
      match env.getInstanceRes with
      | .error e => ([.credentialFetch, .statusFetch], .error ("failed to get instance: " ++ e))
      | .ok inst =>
          if inst.status == "RUNNING" then
            match env.suspendDoRes with
            | .error e =>
                ([.credentialFetch, .statusFetch, .suspendAction],
                  .error ("failed to suspend instance: " ++ e))
            | .ok _ => ([.credentialFetch, .statusFetch, .suspendAction], .ok inst)
          else
            ([.credentialFetch, .statusFetch], .ok inst)

/-- C6: suspendInstance rearms the timer strictly before any remote
interaction; the suspend action is issued exactly when credential fetch
and status fetch succeed and the status is "RUNNING"; a fetched non-RUNNING
status yields success with no suspend action; and the procedure errors
exactly when the credential fetch, the status fetch, or the (attempted)
suspend action fails or returns a non-success response. -/
theorem suspendInstance_contract (env : RestEnv) :
    ((suspendInstanceRest env).1 = RemoteEff.timerRearm :: (suspendMachineRest env).1 ∧
      RemoteEff.timerRearm ∉ (suspendMachineRest env).1) ∧
    (RemoteEff.suspendAction ∈ (suspendMachineRest env).1 ↔
      exceptOk (getAccessToken env) = true ∧
      ∃ vm, getMachineMetadata env = .ok vm ∧ vm.status = "RUNNING") ∧
    (∀ vm, getMachineMetadata env = .ok vm → vm.status ≠ "RUNNING" →
      exceptOk (getAccessToken env) = true →
      (suspendMachineRest env).2 = .ok vm ∧
      RemoteEff.suspendAction ∉ (suspendMachineRest env).1) ∧
    (exceptOk (suspendInstanceRest env).2 = false ↔
      (exceptOk (getAccessToken env) = false ∨
       exceptOk (getMachineMetadata env) = false ∨
       (∃ vm, getMachineMetadata env = .ok vm ∧ vm.status = "RUNNING" ∧
         exceptOk (performInstanceAction env) = false))) := by
  rcases htok : getAccessToken env with et | t
  · simp [suspendInstanceRest, suspendMachineRest, htok, exceptOk]
  · rcases hmd : getMachineMetadata env with em | vm
    · simp [suspendInstanceRest, suspendMachineRest, htok, hmd, exceptOk]
    · by_cases hrun : vm.status = "RUNNING"
      · rcases hact : performInstanceAction env with ea | u <;>
          simp [suspendInstanceRest, suspendMachineRest, htok, hmd, hact, hrun, exceptOk]
      · have hrunb : (vm.status == "RUNNING") = false := by
          simp [hrun]
        simp [suspendInstanceRest, suspendMachineRest, htok, hmd, hrunb, exceptOk, hrun]

/-- Witness for C6 at a concrete environment (all calls succeed, status
RUNNING): the suspend action is among the remote interactions. -/
theorem suspendInstance_contract_witness :
    RemoteEff.suspendAction ∈
      (suspendMachineRest
        { tokenHttp := .ok (200, .ok { accessToken := "tok", expiresIn := 3600, tokenType := "Bearer" }),
          metadataHttp := .ok (200, .ok { status := "RUNNING" }),
          actionHttp := .ok 200 }).1 := by
  exact (suspendInstance_contract
    { tokenHttp := .ok (200, .ok { accessToken := "tok", expiresIn := 3600, tokenType := "Bearer" }),
      metadataHttp := .ok (200, .ok { status := "RUNNING" }),
      actionHttp := .ok 200 }).2.1.mpr
    ⟨by decide, { status := "RUNNING" }, rfl, rfl⟩

/-- Observable behaviour of a suspend-machine run: the remote interactions
performed, and the result reduced to its success value (the error message
text is not part of the taxonomy). -/
def observableOf (p : List RemoteEff × Except String ComputeInstance) :
    List RemoteEff × Option ComputeInstance :=
  (p.1, exceptValue p.2)

/-- C8: the REST and SDK strategies are observationally equivalent.  For
environments that agree step-for-step — credential acquisition succeeds in
one iff it succeeds in the other, the status fetches return the same
instance (or both fail), and the suspend actions agree on success — the
two suspendMachine implementations perform the same remote interactions
(status fetch, then suspend exactly when the status is "RUNNING") and
succeed or fail together with the same returned instance. -/
theorem suspendMachine_strategies_equivalent (re : RestEnv) (se : SdkEnv)
    (hc : exceptOk (getAccessToken re) = exceptOk (createComputeService se))
    (hs : exceptValue (getMachineMetadata re) = exceptValue se.getInstanceRes)
    (hsf : exceptOk (getMachineMetadata re) = exceptOk se.getInstanceRes)
    (ha : exceptOk (performInstanceAction re) = exceptOk se.suspendDoRes) :
    observableOf (suspendMachineRest re) = observableOf (suspendMachineSdk se) := by
  rcases htok : getAccessToken re with et | t <;>
    rcases hcred : createComputeService se with ec | uc <;>
      simp [htok, hcred, exceptOk] at hc
  · simp [suspendMachineRest, suspendMachineSdk, htok, hcred, observableOf, exceptValue]
  · rcases hmd : getMachineMetadata re with em | vm <;>
      rcases hget : se.getInstanceRes with eg | inst <;>
        simp [hmd, hget, exceptOk] at hsf
    · simp [suspendMachineRest, suspendMachineSdk, htok, hcred, hmd, hget,
        observableOf, exceptValue]
    · simp [hmd, hget, exceptValue] at hs
      subst hs
      by_cases hrun : vm.status = "RUNNING"
      · rcases hact : performInstanceAction re with ea | ua <;>
          rcases hdo : se.suspendDoRes with ed | ud <;>
            simp [hact, hdo, exceptOk] at ha <;>
            simp [suspendMachineRest, suspendMachineSdk, htok, hcred, hmd, hget,
              hact, hdo, hrun, observableOf, exceptValue]
      · have hrunb : (vm.status == "RUNNING") = false := by simp [hrun]
        simp [suspendMachineRest, suspendMachineSdk, htok, hcred, hmd, hget,
          hrunb, observableOf, exceptValue]

/-- Witness for C8 at concrete matching environments. -/
theorem suspendMachine_strategies_equivalent_witness :
    observableOf (suspendMachineRest
      { tokenHttp := .ok (200, .ok { accessToken := "tok", expiresIn := 3600, tokenType := "Bearer" }),
        metadataHttp := .ok (200, .ok { status := "RUNNING" }),
        actionHttp := .ok 200 }) =
    observableOf (suspendMachineSdk
      { findCredsRes := .ok (), newServiceRes := .ok (),
        getInstanceRes := .ok { status := "RUNNING" }, suspendDoRes := .ok () }) := by
  exact suspendMachine_strategies_equivalent
    { tokenHttp := .ok (200, .ok { accessToken := "tok", expiresIn := 3600, tokenType := "Bearer" }),
      metadataHttp := .ok (200, .ok { status := "RUNNING" }),
      actionHttp := .ok 200 }
    { findCredsRes := .ok (), newServiceRes := .ok (),
      getInstanceRes := .ok { status := "RUNNING" }, suspendDoRes := .ok () }
    (by decide) (by decide) (by decide) (by decide)

/-!
The liveness endpoint, pingHandler (main.go lines 340-361).  The
ResponseWriter is modelled with net/http semantics: only the first
WriteHeader call takes effect (a later call is "superfluous" and ignored),
and each Write attempt is recorded together with whether it was delivered.
The outcome of the body write is an oracle (`writeOk`).
-/

/-- Model of an http.ResponseWriter: headers, the status fixed by the
first WriteHeader call, and the write attempts made. -/
structure ResponseRec where
  contentType : Option String
  status : Option Nat
  writeAttempts : List String
  deriving Repr, DecidableEq

/-- WriteHeader with net/http semantics: the first call sets the status,
any further call is superfluous and ignored. -/
def writeHeader (w : ResponseRec) (code : Nat) : ResponseRec :=
  match w.status with
  | some _ => w
  | none => { w with status := some code }

/-- ActivityTracker fields of main.go (lastPing, requestCount). -/
structure TrackerState where
  lastPing : Int
  requestCount : Int
  deriving Repr, DecidableEq

/-- pingHandler (main.go lines 340-361): record the signal (lastPing,
requestCount) under the tracker lock, rearm the timer, then respond.
`writeOk` is the outcome of the `w.Write([]byte("pong"))` call; on failure
the handler calls `http.Error(w, "Failed to write response", 500)` (which
sets headers, calls WriteHeader(500), and writes the message).  Returns
the tracker state, whether resetShutdownTimer was called, and the final
response record. -/
def pingHandler (st : TrackerState) (now : Int) (writeOk : Bool)
    (w : ResponseRec) : TrackerState × Bool × ResponseRec :=
  let st1 : TrackerState := { lastPing := now, requestCount := st.requestCount + 1 }
  let rearmed := true
  let w1 := { w with contentType := some "text/plain" }
  let w2 := writeHeader w1 200
  let w3 := { w2 with writeAttempts := w2.writeAttempts ++ ["pong"] }
  if writeOk then
    (st1, rearmed, w3)
  else
    let w4 := writeHeader { w3 with contentType := some "text/plain; charset=utf-8" } 500
    (st1, rearmed, { w4 with writeAttempts := w4.writeAttempts ++ ["Failed to write response\n"] })

/-- A fresh response (no headers, no status committed, nothing written). -/
def freshResponse : ResponseRec :=
  { contentType := none, status := none, writeAttempts := [] }

/-- C9 (code evaluated at the failing input): for a ping request whose
response-body write fails, the liveness signal is recorded and the timer
rearmed exactly as on the success path — identical tracker state and rearm
flag — but the status the caller observes is 200, not 500: the
WriteHeader(500) issued by http.Error is superfluous because the handler
already committed status 200 before attempting the body write. -/
theorem pingHandler_writeFailure_state_recorded_but_status_200 :
    (pingHandler { lastPing := 3, requestCount := 7 } 100 false freshResponse).1 =
      { lastPing := 100, requestCount := 8 } ∧
    (pingHandler { lastPing := 3, requestCount := 7 } 100 false freshResponse).2.1 = true ∧
    (pingHandler { lastPing := 3, requestCount := 7 } 100 false freshResponse).1 =
      (pingHandler { lastPing := 3, requestCount := 7 } 100 true freshResponse).1 ∧
    (pingHandler { lastPing := 3, requestCount := 7 } 100 false freshResponse).2.1 =
      (pingHandler { lastPing := 3, requestCount := 7 } 100 true freshResponse).2.1 ∧
    (pingHandler { lastPing := 3, requestCount := 7 } 100 false freshResponse).2.2.status =
      some 200 ∧
    (pingHandler { lastPing := 3, requestCount := 7 } 100 false freshResponse).2.2.status ≠
      some 500 := by
  decide

/-!
The timer subsystem as a labelled transition system.  All timer and latch
operations in main.go are serialized by `shutdownMutex`, and the
`time.AfterFunc` callback body runs `initiateShutdown` to completion, so a
system history is an interleaving of atomic steps:

* `advance d` — wall-clock time passes (d is nonnegative);
* `startup` — main's startup arming (skipped when LIBOPS_KEEP_ONLINE is
  "yes", main.go lines 374-378);
* `ping` — pingHandler's state update and resetShutdownTimer call;
* `fire i gha susp` — the callback of the i-th `time.AfterFunc` timer
  runs, which is only possible when that timer was neither stopped nor
  already fired and its deadline has been reached; the callback runs
  `initiateShutdown`, with the fallback-probe result `gha` and the
  suspendMachine outcome `susp` as oracles;
* `stopT` — stopShutdownTimer (teardown);
* `health` — healthHandler (touches nothing).

Every timer ever created by `time.AfterFunc` is kept in `timers`
(armed time, deadline, whether Stop got it first, whether it fired);
`current` is the index held by the `shutdownTimer` variable.
`suspendInvocations` records the time of every call to `suspendFunc`
(which in production is suspendInstance: it rearms the timer and performs
the remote call, whose outcome only affects logs).
-/

/-- Bookkeeping for one timer created by time.AfterFunc. -/
structure TimerRec where
  armedAt : Int
  deadline : Int
  cancelled : Bool
  fired : Bool
  deriving Repr, DecidableEq

/-- Global state of the timer/signal subsystem. -/
structure SysState where
  cfg : Config
  now : Int
  timers : List TimerRec
  current : Option Nat
  lastPing : Int
  requestCount : Int
  serverShutdownClosed : Bool
  suspendInvocations : List Int
  deriving Repr, DecidableEq

/-- Replace the timer at an index by a modified copy (no-op out of range). -/
def modifyTimer : List TimerRec → Nat → (TimerRec → TimerRec) → List TimerRec
  | [], _, _ => []
  | t :: ts, 0, f => f t :: ts
  | t :: ts, n + 1, f => t :: modifyTimer ts n f

/-- Effect of shutdownTimer.Stop() on the bookkeeping for timer i. -/
def cancelAt (ts : List TimerRec) (i : Nat) : List TimerRec :=
  modifyTimer ts i fun t => { t with cancelled := true }

/-- Mark timer i as having fired. -/
def fireAt (ts : List TimerRec) (i : Nat) : List TimerRec :=
  modifyTimer ts i fun t => { t with fired := true }

/-- Effect of the `if shutdownTimer != nil { shutdownTimer.Stop() }` step
on the timer bookkeeping. -/
def cancelCurrentTimers (s : SysState) : List TimerRec :=
  match s.current with
  | some i => cancelAt s.timers i
  | none => s.timers

/-- resetShutdownTimer (main.go lines 111-126): under the lock, Stop the
timer the shutdownTimer variable holds (if any), then install a fresh
time.AfterFunc timer with deadline now + InactivityTimeout. -/
def resetShutdownTimerS (s : SysState) : SysState :=
  let ts := cancelCurrentTimers s
  { s with
      timers := ts ++ [{ armedAt := s.now, deadline := s.now + s.cfg.inactivityTimeout,
                         cancelled := false, fired := false }]
      current := some ts.length }

/-- stopShutdownTimer (main.go lines 128-137): Stop the held timer and
clear the variable; a no-op when no timer is held. -/
def stopShutdownTimerS (s : SysState) : SysState :=
  match s.current with
  | some i => { s with timers := cancelAt s.timers i, current := none }
  | none => s

/-- Suspend-and-signal tail of initiateShutdown over the system state
(main.go lines 311-338).  With a complete GCP identity, suspendFunc
(= suspendInstance) is invoked: the invocation time is recorded and the
timer is rearmed before the remote call; the remote outcome `susp` is only
logged.  Finally the serverShutdown latch is closed (guarded, idempotent). -/
def proceedS (s : SysState) (_susp : Except String Unit) : SysState :=
  let s1 :=
    if gcpConfigMissing s.cfg then s
    else
      let s0 := { s with suspendInvocations := s.suspendInvocations ++ [s.now] }
      resetShutdownTimerS s0
  { s1 with serverShutdownClosed := true }

/-- initiateShutdown over the system state: fallback-probe check first
(rearm and return when the reported activity is strictly fresher than the
timeout), otherwise the suspend-and-signal tail. -/
def runDecisionS (s : SysState) (gha : Except String Int)
    (susp : Except String Unit) : SysState :=
  match gha with
  | .ok lastGHA =>
      if s.now - lastGHA < s.cfg.inactivityTimeout then resetShutdownTimerS s
      else proceedS s susp
  | .error _ => proceedS s susp

/-- Events of the transition system. -/
inductive Event where
  | advance (d : Int)
  | startup
  | ping
  | fire (i : Nat) (gha : Except String Int) (susp : Except String Unit)
  | stopT
  | health

/-- Timer i may fire: it exists, was not stopped, has not fired, and its
deadline has been reached. -/
def pendingDueB (s : SysState) (i : Nat) : Bool :=
  match s.timers.get? i with
  | some t => !t.cancelled && !t.fired && decide (t.deadline ≤ s.now)
  | none => false

/-- Guard of each event. -/
def enabledB (s : SysState) : Event → Bool
  | .advance d => decide (0 ≤ d)
  | .fire i _ _ => pendingDueB s i
  | _ => true

/-- State transformation of each event (see the section comment). -/
def applyEvent (s : SysState) : Event → SysState
  | .advance d => { s with now := s.now + d }
  | .startup =>
      if s.cfg.libOpsKeepOnline == "yes" then s else resetShutdownTimerS s
  | .ping =>
      resetShutdownTimerS
        { s with lastPing := s.now, requestCount := s.requestCount + 1 }
  | .fire i gha susp =>
      runDecisionS { s with timers := fireAt s.timers i } gha susp
  | .stopT => stopShutdownTimerS s
  | .health => s

/-- One atomic step of the system: the event is enabled and the target
state is its effect. -/
def Step (s : SysState) (e : Event) (u : SysState) : Prop :=
  enabledB s e = true ∧ u = applyEvent s e

/-- A finite run through the listed events. -/
inductive TraceL : SysState → List Event → SysState → Prop
  | nil (s : SysState) : TraceL s [] s
  | cons {s t u : SysState} {e : Event} {es : List Event}
      (h1 : Step s e t) (h2 : TraceL t es u) : TraceL s (e :: es) u

/-- Process state right after init() (loadConfig, tracker creation): no
timer exists, the latch is open, nothing has been suspended. -/
def initState (cfg : Config) (t0 : Int) : SysState :=
  { cfg := cfg, now := t0, timers := [], current := none, lastPing := t0,
    requestCount := 0, serverShutdownClosed := false, suspendInvocations := [] }

/-! Helper lemmas about the timer bookkeeping. -/

theorem modifyTimer_length (ts : List TimerRec) (i : Nat) (f : TimerRec → TimerRec) :
    (modifyTimer ts i f).length = ts.length := by
  induction ts generalizing i with
  | nil => rfl
  | cons t ts ih =>
      cases i with
      | zero => rfl
      | succ n => simp [modifyTimer, ih]

theorem mem_modifyTimer {tr : TimerRec} {ts : List TimerRec} {i : Nat}
    {f : TimerRec → TimerRec} (h : tr ∈ modifyTimer ts i f) :
    tr ∈ ts ∨ ∃ u ∈ ts, tr = f u := by
  induction ts generalizing i with
  | nil => simp [modifyTimer] at h
  | cons t ts ih =>
      cases i with
      | zero =>
          simp [modifyTimer] at h
          rcases h with h | h
          · exact Or.inr ⟨t, by simp, h⟩
          · exact Or.inl (by simp [h])
      | succ n =>
          simp [modifyTimer] at h
          rcases h with h | h
          · exact Or.inl (by simp [h])
          · rcases ih h with h2 | ⟨u, hu, he⟩
            · exact Or.inl (by simp [h2])
            · exact Or.inr ⟨u, by simp [hu], he⟩

theorem modifyTimer_get?_ne {ts : List TimerRec} {i j : Nat}
    (f : TimerRec → TimerRec) (h : j ≠ i) :
    (modifyTimer ts i f).get? j = ts.get? j := by
  induction ts generalizing i j with
  | nil => rfl
  | cons t ts ih =>
      cases i with
      | zero =>
          cases j with
          | zero => exact absurd rfl h
          | succ m => rfl
      | succ n =>
          cases j with
          | zero => rfl
          | succ m =>
              simp only [modifyTimer, List.get?]
              exact ih (by omega)

theorem modifyTimer_get?_eq (ts : List TimerRec) (i : Nat) (f : TimerRec → TimerRec) :
    (modifyTimer ts i f).get? i = (ts.get? i).map f := by
  induction ts generalizing i with
  | nil => rfl
  | cons t ts ih =>
      cases i with
      | zero => rfl
      | succ n => simpa [modifyTimer] using ih n

/-! Invariant for C2: in any run starting at controller start time t0,
every timer deadline is at least t0 + timeout, and every recorded suspend
invocation happened at or after t0 + timeout. -/

/-- History invariant behind property P1. -/
def InvP1 (cfg : Config) (t0 : Int) (s : SysState) : Prop :=
  s.cfg = cfg ∧ t0 ≤ s.now ∧
  (∀ tr ∈ s.timers, t0 + cfg.inactivityTimeout ≤ tr.deadline) ∧
  (∀ d ∈ s.suspendInvocations, t0 + cfg.inactivityTimeout ≤ d)

theorem InvP1_cancelCurrent {cfg : Config} {t0 : Int} {s : SysState}
    (h : ∀ tr ∈ s.timers, t0 + cfg.inactivityTimeout ≤ tr.deadline) :
    ∀ tr ∈ cancelCurrentTimers s, t0 + cfg.inactivityTimeout ≤ tr.deadline := by
  intro tr htr
  unfold cancelCurrentTimers at htr
  cases hc : s.current with
  | none => exact h tr (by rwa [hc] at htr)
  | some i =>
      rw [hc] at htr
      rcases mem_modifyTimer htr with hm | ⟨u, hu, he⟩
      · exact h tr hm
      · have := h u hu
        simp [he, this]

theorem InvP1_reset {cfg : Config} {t0 : Int} {s : SysState}
    (h : InvP1 cfg t0 s) : InvP1 cfg t0 (resetShutdownTimerS s) := by
  obtain ⟨hcfg, hnow, htimers, hsusp⟩ := h
  refine ⟨hcfg, hnow, ?_, hsusp⟩
  intro tr htr
  simp only [resetShutdownTimerS, List.mem_append, List.mem_singleton] at htr
  rcases htr with htr | htr
  · exact InvP1_cancelCurrent htimers tr htr
  · subst htr
    simp only
    rw [hcfg]
    omega

theorem InvP1_fireAt {cfg : Config} {t0 : Int} {s : SysState} {i : Nat}
    (h : ∀ tr ∈ s.timers, t0 + cfg.inactivityTimeout ≤ tr.deadline) :
    ∀ tr ∈ fireAt s.timers i, t0 + cfg.inactivityTimeout ≤ tr.deadline := by
  intro tr htr
  rcases mem_modifyTimer htr with hm | ⟨u, hu, he⟩
  · exact h tr hm
  · have := h u hu
    simp [he, this]

theorem InvP1_proceedS {cfg : Config} {t0 : Int} {s : SysState}
    (h : InvP1 cfg t0 s) (hlate : t0 + cfg.inactivityTimeout ≤ s.now)
    (susp : Except String Unit) : InvP1 cfg t0 (proceedS s susp) := by
  obtain ⟨hcfg, hnow, htimers, hsusp⟩ := h
  by_cases hm : gcpConfigMissing s.cfg = true
  · simp only [proceedS, if_pos hm]
    exact ⟨hcfg, hnow, htimers, hsusp⟩
  · simp only [proceedS, if_neg hm]
    have hrec : InvP1 cfg t0
        { s with suspendInvocations := s.suspendInvocations ++ [s.now] } := by
      refine ⟨hcfg, hnow, htimers, ?_⟩
      intro d hd
      simp only [List.mem_append, List.mem_singleton] at hd
      rcases hd with hd | hd
      · exact hsusp d hd
      · subst hd; exact hlate
    have hr := InvP1_reset hrec
    exact ⟨hr.1, hr.2.1, hr.2.2.1, hr.2.2.2⟩

theorem InvP1_step {cfg : Config} {t0 : Int} {s u : SysState} {e : Event}
    (hstep : Step s e u) (h : InvP1 cfg t0 s) : InvP1 cfg t0 u := by
  obtain ⟨hen, rfl⟩ := hstep
  obtain ⟨hcfg, hnow, htimers, hsusp⟩ := h
  cases e with
  | advance d =>
      have hd : (0 : Int) ≤ d := by
        simpa [enabledB] using hen
      exact ⟨hcfg, by simp [applyEvent]; omega, by simpa [applyEvent] using htimers,
        by simpa [applyEvent] using hsusp⟩
  | startup =>
      simp only [applyEvent]
      split
      · exact ⟨hcfg, hnow, htimers, hsusp⟩
      · exact InvP1_reset ⟨hcfg, hnow, htimers, hsusp⟩
  | ping =>
      simp only [applyEvent]
      exact InvP1_reset ⟨hcfg, hnow, htimers, hsusp⟩
  | stopT =>
      simp only [applyEvent, stopShutdownTimerS]
      cases hc : s.current with
      | none => exact ⟨hcfg, hnow, htimers, hsusp⟩
      | some i =>
          refine ⟨hcfg, hnow, ?_, hsusp⟩
          intro tr htr
          rcases mem_modifyTimer htr with hm | ⟨v, hv, he⟩
          · exact htimers tr hm
          · have := htimers v hv
            simp [he, this]
  | health => exact ⟨hcfg, hnow, htimers, hsusp⟩
  | fire i gha susp =>
      -- the firing timer is due: its deadline, hence t0 + timeout, is ≤ now
      have hdue : ∃ t, s.timers.get? i = some t ∧ t.deadline ≤ s.now := by
        simp only [enabledB, pendingDueB] at hen
        cases hg : s.timers.get? i with
        | none => rw [hg] at hen; exact absurd hen (by simp)
        | some t =>
            rw [hg] at hen
            refine ⟨t, rfl, ?_⟩
            simp only [Bool.and_eq_true, decide_eq_true_eq] at hen
            exact hen.2
      obtain ⟨tdue, hget, hlate⟩ := hdue
      have hmem : tdue ∈ s.timers := List.get?_mem hget
      have hnowlate : t0 + cfg.inactivityTimeout ≤ s.now :=
        le_trans (htimers tdue hmem) hlate
      have hfired : InvP1 cfg t0 { s with timers := fireAt s.timers i } :=
        ⟨hcfg, hnow, InvP1_fireAt htimers, hsusp⟩
      have hlate2 : t0 + cfg.inactivityTimeout ≤
          (SysState.now { s with timers := fireAt s.timers i }) := hnowlate
      cases gha with
      | ok lastGHA =>
          simp only [applyEvent, runDecisionS]
          by_cases hgha : s.now - lastGHA < s.cfg.inactivityTimeout
          · rw [if_pos hgha]
            exact InvP1_reset hfired
          · rw [if_neg hgha]
            exact InvP1_proceedS hfired hlate2 _
      | error msg =>
          simp only [applyEvent, runDecisionS]
          exact InvP1_proceedS hfired hlate2 _

theorem InvP1_trace {cfg : Config} {t0 : Int} {s u : SysState} {es : List Event}
    (htr : TraceL s es u) (h : InvP1 cfg t0 s) : InvP1 cfg t0 u := by
  induction htr with
  | nil => exact h
  | cons h1 _h2 ih => exact ih (InvP1_step h1 h)

/-- C2 (property P1, no premature suspend): start the process at time t0
with keep-online unset, so main's startup path arms the controller at t0.
In every run from there — in particular in every run in which no liveness
signal arrives and no fallback-probe consultation reports activity fresher
than the timeout, the case the claim describes — every invocation of the
suspend action happens at or after t0 plus the configured inactivity
timeout, never before.  No assumption on pings or probe reports is needed:
a ping or a fresh fallback report only ever installs a new timer whose
deadline `now + timeout` is at least `t0 + timeout`, so such events can
only postpone the first possible suspension, and the bound proved here
without them subsumes the claim's conditional statement. -/
theorem no_premature_suspend (cfg : Config) (t0 : Int) (es : List Event)
    (sFin : SysState)
    (_hKO : cfg.libOpsKeepOnline ≠ "yes")
    (hTr : TraceL (applyEvent (initState cfg t0) Event.startup) es sFin) :
    ∀ d ∈ sFin.suspendInvocations, t0 + cfg.inactivityTimeout ≤ d := by
  have h0 : InvP1 cfg t0 (initState cfg t0) := by
    refine ⟨rfl, le_refl t0, ?_, ?_⟩
    · intro tr htr; simp [initState] at htr
    · intro d hd; simp [initState] at hd
  have h1 : InvP1 cfg t0 (applyEvent (initState cfg t0) Event.startup) := by
    simp only [applyEvent]
    split
    · exact h0
    · exact InvP1_reset h0
  exact (InvP1_trace hTr h1).2.2.2

/-- Configuration used in the P1 witness run. -/
def p1Cfg : Config :=
  { port := "8808", inactivityTimeout := 90, libOpsKeepOnline := "",
    logLevel := "INFO", googleProjectID := "p", gceZone := "z", gceInstance := "i" }

/-- Firing event of the P1 witness run (probe reports nothing). -/
def p1Fire : Event :=
  Event.fire 0 (Except.error "no github-actions-runner logs") (Except.ok ())

/-- Events of the P1 witness run. -/
def p1Events : List Event := [Event.advance 90, p1Fire]

/-- Armed start state of the P1 witness run. -/
def p1S0 : SysState := applyEvent (initState p1Cfg 0) Event.startup

/-- P1 witness run after time has advanced to the deadline. -/
def p1S1 : SysState := applyEvent p1S0 (Event.advance 90)

/-- Final state of the P1 witness run. -/
def p1Final : SysState := applyEvent p1S1 p1Fire

/-- Witness for C2: in the concrete run that arms at time 0 and fires at
time 90, the recorded suspend invocation satisfies the bound. -/
theorem no_premature_suspend_witness : (0 : Int) + p1Cfg.inactivityTimeout ≤ 90 := by
  have htr : TraceL p1S0 p1Events p1Final :=
    TraceL.cons ⟨by decide, rfl⟩ (TraceL.cons ⟨by decide, rfl⟩ (TraceL.nil _))
  exact no_premature_suspend p1Cfg 0 p1Events p1Final (by decide) htr
    90 (by decide)

/-! Invariant for C4: at every instant, at most one timer is pending
(neither stopped nor fired), namely the one the shutdownTimer variable
holds. -/

/-- Timer that is scheduled and may still fire. -/
def isPending (t : TimerRec) : Bool := !t.cancelled && !t.fired

/-- Every pending timer is the one held by the shutdownTimer variable. -/
def PendingOnlyCurrent (s : SysState) : Prop :=
  ∀ i t, s.timers.get? i = some t → isPending t = true → s.current = some i

/-- At most one scheduled decision invocation exists. -/
def AtMostOnePending (s : SysState) : Prop :=
  ∀ i j ti tj, s.timers.get? i = some ti → s.timers.get? j = some tj →
    isPending ti = true → isPending tj = true → i = j

theorem atMostOne_of_POC {s : SysState} (h : PendingOnlyCurrent s) :
    AtMostOnePending s := by
  intro i j ti tj hi hj hpi hpj
  have h1 := h i ti hi hpi
  have h2 := h j tj hj hpj
  rw [h1] at h2
  exact Option.some.inj h2

theorem noPending_cancelAt_current {s : SysState} {i : Nat}
    (h : PendingOnlyCurrent s) (hc : s.current = some i) :
    ∀ j t, (cancelAt s.timers i).get? j = some t → isPending t = false := by
  intro j t hj
  by_cases hij : j = i
  · subst hij
    rw [cancelAt, modifyTimer_get?_eq] at hj
    cases hg : s.timers.get? j with
    | none => rw [hg] at hj; exact absurd hj (by simp)
    | some u =>
        rw [hg] at hj
        have ht : t = { u with cancelled := true } := (Option.some.inj hj).symm
        simp [ht, isPending]
  · rw [cancelAt, modifyTimer_get?_ne _ hij] at hj
    cases hpt : isPending t with
    | false => rfl
    | true =>
        have h2 := h j t hj hpt
        rw [hc] at h2
        exact absurd (Option.some.inj h2).symm hij

theorem noPending_cancelCurrent' {s : SysState} (h : PendingOnlyCurrent s) :
    ∀ j t, (cancelCurrentTimers s).get? j = some t → isPending t = false := by
  intro j t hj
  unfold cancelCurrentTimers at hj
  cases hc : s.current with
  | none =>
      rw [hc] at hj
      cases hpt : isPending t with
      | false => rfl
      | true =>
          have h2 := h j t hj hpt
          rw [hc] at h2
          exact absurd h2 (by simp)
  | some i =>
      rw [hc] at hj
      exact noPending_cancelAt_current h hc j t hj

theorem POC_of_noPending {s : SysState}
    (h : ∀ j t, s.timers.get? j = some t → isPending t = false) :
    PendingOnlyCurrent s := by
  intro i t hi hp
  exact absurd (h i t hi) (by simp [hp])

theorem POC_reset {s : SysState} (h : PendingOnlyCurrent s) :
    PendingOnlyCurrent (resetShutdownTimerS s) := by
  intro i t hi hp
  simp only [resetShutdownTimerS] at hi ⊢
  rcases lt_trichotomy i (cancelCurrentTimers s).length with hlt | heq | hgt
  · rw [List.get?_append hlt] at hi
    exact absurd (noPending_cancelCurrent' h i t hi) (by simp [hp])
  · exact congrArg some heq.symm
  · have hge : (cancelCurrentTimers s).length ≤ i := le_of_lt hgt
    rw [List.get?_append_right hge] at hi
    have : 1 ≤ i - (cancelCurrentTimers s).length := by omega
    rw [List.get?_eq_none.mpr (by simpa using this)] at hi
    exact absurd hi (by simp)

theorem noPending_fireAt {s : SysState} {i : Nat} {ti : TimerRec}
    (h : PendingOnlyCurrent s) (hget : s.timers.get? i = some ti)
    (hp : isPending ti = true) :
    ∀ j t, (fireAt s.timers i).get? j = some t → isPending t = false := by
  intro j t hj
  by_cases hij : j = i
  · subst hij
    rw [fireAt, modifyTimer_get?_eq, hget] at hj
    have ht : t = { ti with fired := true } := (Option.some.inj hj).symm
    simp [ht, isPending]
  · rw [fireAt, modifyTimer_get?_ne _ hij] at hj
    cases hpt : isPending t with
    | false => rfl
    | true =>
        have h1 := h i ti hget hp
        have h2 := h j t hj hpt
        rw [h1] at h2
        exact absurd (Option.some.inj h2).symm hij

theorem POC_proceedS {s : SysState} (h : PendingOnlyCurrent s)
    (susp : Except String Unit) : PendingOnlyCurrent (proceedS s susp) := by
  unfold proceedS
  by_cases hm : gcpConfigMissing s.cfg = true
  · rw [if_pos hm]
    exact fun i t hi hp => h i t hi hp
  · rw [if_neg hm]
    exact fun i t hi hp =>
      POC_reset (s := { s with suspendInvocations := s.suspendInvocations ++ [s.now] })
        (fun j u hj hp2 => h j u hj hp2) i t hi hp

theorem POC_step {s u : SysState} {e : Event}
    (hstep : Step s e u) (h : PendingOnlyCurrent s) : PendingOnlyCurrent u := by
  obtain ⟨hen, rfl⟩ := hstep
  cases e with
  | advance d => exact fun i t hi hp => h i t hi hp
  | startup =>
      simp only [applyEvent]
      split
      · exact h
      · exact POC_reset h
  | ping =>
      exact POC_reset
        (s := { s with lastPing := s.now, requestCount := s.requestCount + 1 })
        (fun j u hj hp2 => h j u hj hp2)
  | stopT =>
      simp only [applyEvent, stopShutdownTimerS]
      cases hc : s.current with
      | none => exact h
      | some i =>
          intro j t hj hp
          exact absurd (noPending_cancelAt_current h hc j t hj) (by simp [hp])
  | health => exact h
  | fire i gha susp =>
      have hdue : ∃ ti, s.timers.get? i = some ti ∧ isPending ti = true := by
        simp only [enabledB, pendingDueB] at hen
        cases hg : s.timers.get? i with
        | none => rw [hg] at hen; exact absurd hen (by simp)
        | some ti =>
            rw [hg] at hen
            simp only [Bool.and_eq_true] at hen
            exact ⟨ti, rfl, by simp [isPending, hen.1.1, hen.1.2]⟩
      obtain ⟨ti, hget, hp⟩ := hdue
      have hnp := noPending_fireAt h hget hp
      have hPOCf : PendingOnlyCurrent { s with timers := fireAt s.timers i } :=
        POC_of_noPending (fun j t hj => hnp j t hj)
      cases gha with
      | ok lastGHA =>
          simp only [applyEvent, runDecisionS]
          by_cases hgha : s.now - lastGHA < s.cfg.inactivityTimeout
          · rw [if_pos hgha]
            exact POC_reset hPOCf
          · rw [if_neg hgha]
            exact POC_proceedS hPOCf _
      | error msg =>
          simp only [applyEvent, runDecisionS]
          exact POC_proceedS hPOCf _

theorem POC_trace {s u : SysState} {es : List Event}
    (htr : TraceL s es u) (h : PendingOnlyCurrent s) : PendingOnlyCurrent u := by
  induction htr with
  | nil => exact h
  | cons h1 _h2 ih => exact ih (POC_step h1 h)

theorem first_reset_timer_cancelled (s : SysState) :
    ∃ tr, (resetShutdownTimerS (resetShutdownTimerS s)).timers.get?
        (cancelCurrentTimers s).length = some tr ∧
      tr.cancelled = true ∧ tr.armedAt = s.now := by
  have hrw : (resetShutdownTimerS (resetShutdownTimerS s)).timers =
      cancelAt (cancelCurrentTimers s ++
          [{ armedAt := s.now, deadline := s.now + s.cfg.inactivityTimeout,
             cancelled := false, fired := false }]) (cancelCurrentTimers s).length ++
        [{ armedAt := s.now, deadline := s.now + s.cfg.inactivityTimeout,
           cancelled := false, fired := false }] := rfl
  have hlen : (cancelCurrentTimers s).length <
      (cancelAt (cancelCurrentTimers s ++
        [{ armedAt := s.now, deadline := s.now + s.cfg.inactivityTimeout,
           cancelled := false, fired := false }]) (cancelCurrentTimers s).length).length := by
    rw [cancelAt, modifyTimer_length]
    simp
  have hget : (cancelAt (cancelCurrentTimers s ++
        [{ armedAt := s.now, deadline := s.now + s.cfg.inactivityTimeout,
           cancelled := false, fired := false }]) (cancelCurrentTimers s).length).get?
      (cancelCurrentTimers s).length =
      some { armedAt := s.now, deadline := s.now + s.cfg.inactivityTimeout,
             cancelled := true, fired := false } := by
    rw [cancelAt, modifyTimer_get?_eq, List.get?_concat_length]
    rfl
  refine ⟨{ armedAt := s.now, deadline := s.now + s.cfg.inactivityTimeout,
            cancelled := true, fired := false }, ?_, rfl, rfl⟩
  rw [hrw, List.get?_append hlen, hget]

/-- C4: along every run of the system, at most one scheduled decision
invocation is pending at any instant; and a rearm immediately followed by
a rearm leaves at most one pending timer, the timer installed by the first
of the two rearm calls having been stopped by the second before its new
timer was installed — so it can never fire. -/
theorem rearm_single_pending (cfg : Config) (t0 : Int) (es : List Event)
    (s : SysState) (hTr : TraceL (initState cfg t0) es s) :
    AtMostOnePending s ∧
    AtMostOnePending (resetShutdownTimerS (resetShutdownTimerS s)) ∧
    ∃ tr, (resetShutdownTimerS (resetShutdownTimerS s)).timers.get?
        (cancelCurrentTimers s).length = some tr ∧
      tr.cancelled = true ∧ tr.armedAt = s.now := by
  have h0 : PendingOnlyCurrent (initState cfg t0) := by
    intro i t hi hp
    simp [initState] at hi
  have hs := POC_trace hTr h0
  exact ⟨atMostOne_of_POC hs,
    atMostOne_of_POC (POC_reset (POC_reset hs)),
    first_reset_timer_cancelled s⟩

/-- Configuration of the C4 witness run. -/
def c4Cfg : Config :=
  { port := "8808", inactivityTimeout := 60, libOpsKeepOnline := "",
    logLevel := "INFO", googleProjectID := "p", gceZone := "z", gceInstance := "i" }

/-- State of the C4 witness run after startup armed the controller. -/
def c4S : SysState := applyEvent (initState c4Cfg 0) Event.startup

/-- Witness for C4: after a concrete run and two further back-to-back
rearm calls, at most one decision invocation is pending. -/
theorem rearm_single_pending_witness :
    AtMostOnePending (resetShutdownTimerS (resetShutdownTimerS c4S)) := by
  exact (rearm_single_pending c4Cfg 0 [Event.startup] c4S
    (TraceL.cons ⟨by decide, rfl⟩ (TraceL.nil _))).2.1

/-! C7 concerns LIBOPS_KEEP_ONLINE.  main (lines 374-378) skips the
startup arming when the flag is "yes", but pingHandler (line 347) calls
resetShutdownTimer unconditionally, so a single liveness ping arms the
timer even in keep-online mode, after which an inactivity period triggers
the decision routine and the suspend action.  The run below exhibits
this. -/

/-- Keep-online configuration (flag set, identity complete). -/
def koCfg : Config :=
  { port := "8808", inactivityTimeout := 90, libOpsKeepOnline := "yes",
    logLevel := "INFO", googleProjectID := "p", gceZone := "z", gceInstance := "i" }

/-- Firing event of the keep-online run (probe reports nothing). -/
def koFire : Event :=
  Event.fire 0 (Except.error "no github-actions-runner logs") (Except.ok ())

/-- Events of the keep-online run: startup, one ping, 90 time units of
silence, timer fires. -/
def koEvents : List Event := [Event.startup, Event.ping, Event.advance 90, koFire]

/-- Successive states of the keep-online run. -/
def koS1 : SysState := applyEvent (initState koCfg 0) Event.startup

/-- Keep-online run after the ping. -/
def koS2 : SysState := applyEvent koS1 Event.ping

/-- Keep-online run after the silence. -/
def koS3 : SysState := applyEvent koS2 (Event.advance 90)

/-- Final state of the keep-online run. -/
def koFinal : SysState := applyEvent koS3 koFire

/-- C7 evaluated on the code: with the keep-online flag set, startup arms
nothing, but a single ping arms the inactivity timer, and after the
timeout elapses the timer fires and the suspend action is invoked — the
flag does not prevent either the arming or the suspension. -/
theorem keepOnline_ping_still_suspends :
    koCfg.libOpsKeepOnline = "yes" ∧
    koS1.timers = [] ∧
    TraceL (initState koCfg 0) koEvents koFinal ∧
    koS2.timers ≠ [] ∧
    koFinal.suspendInvocations = [(90 : Int)] := by
  refine ⟨rfl, by decide, ?_, by decide, by decide⟩
  exact TraceL.cons ⟨by decide, rfl⟩
    (TraceL.cons ⟨by decide, rfl⟩
      (TraceL.cons ⟨by decide, rfl⟩
        (TraceL.cons ⟨by decide, rfl⟩ (TraceL.nil _))))

end Lightsout
